import Mathlib

/-!
Verification of the double-entry ledger core of go-api-foundry.

The development shallowly embeds the ledger domain of the repository:

* the data model (`internal/models/ledger.go`): accounts, transactions and
  ledger entries, with monetary values as integers (the Go code uses `int64`;
  no claim here depends on overflow behaviour);
* the ledger repository (`domain/ledger/repository.go`, the current variant
  that locks account rows before the idempotency lookup): `ExecuteDoubleEntry`,
  `GetDerivedBalance`, `GetTransactionsByAccountID`,
  `GetAllAccountsForReconciliation`;
* the ledger application service (`domain/ledger/service.go` as present in
  the tree): `CreateAccount`, `Deposit`, `Withdraw`, `Transfer`,
  `GetTransactions`, `Reconcile`;
* the pagination parsing of `getTransactionsHandler`
  (`domain/ledger/controller.go`).

The database is modelled as a `LedgerState` value holding the three tables.
A storage transaction that fails is modelled by an `Except.error` result that
carries no state: rollback leaves the pre-call state in force, which is how
every caller below treats errors.  UUID generation is modelled by a counter
(`nextId`) for transaction and entry rows, and by a caller-supplied id for
account rows (the primary-key uniqueness check of the storage stands in for
the collision-resistance of the generator).  Row timestamps come from the
same counter, so `created_at` order coincides with insertion order, as it
does on a single writer.
-/

/-- Account types, from internal/models/ledger.go. -/
def AccountTypeUser : String := "USER"

/-- The SYSTEM account type constant. -/
def AccountTypeSystem : String := "SYSTEM"

/-- Transaction type constants. -/
def TransactionTypeDeposit : String := "DEPOSIT"

/-- The WITHDRAWAL transaction type. -/
def TransactionTypeWithdrawal : String := "WITHDRAWAL"

/-- The TRANSFER transaction type. -/
def TransactionTypeTransfer : String := "TRANSFER"

/-- Entry type constants. -/
def EntryTypeDebit : String := "DEBIT"

/-- The CREDIT entry type. -/
def EntryTypeCredit : String := "CREDIT"

/-- The well-known id of the seeded system account. -/
def SystemAccountID : String := "00000000-0000-0000-0000-000000000001"

/-- An account row (models.Account).  `balance` is the cached balance. -/
structure Account where
  id : String
  name : String
  accountType : String
  currency : String
  balance : Int
  version : Int
  deriving Repr, DecidableEq

/-- A ledger entry row (models.LedgerEntry).  Row ids are drawn from the
state counter in place of UUIDs. -/
structure LedgerEntry where
  id : Nat
  transactionID : Nat
  accountID : String
  entryType : String
  amount : Int
  balanceAfter : Int
  deriving Repr, DecidableEq

/-- A transaction row (models.Transaction).  `entries` is the preloaded
association slice; stored rows keep it empty and reads attach it. -/
structure Transaction where
  id : Nat
  idempotencyKey : String
  transactionType : String
  amount : Int
  currency : String
  description : String
  createdAt : Nat
  entries : List LedgerEntry
  deriving Repr, DecidableEq

/-- The three tables of the storage, plus the id/timestamp counter. -/
structure LedgerState where
  accounts : List Account
  transactions : List Transaction
  entries : List LedgerEntry
  nextId : Nat
  deriving Repr, DecidableEq

/-- The command type of the ledger repository (DoubleEntryCommand). -/
structure DoubleEntryCommand where
  sourceAccountID : String
  destAccountID : String
  amount : Int
  currency : String
  transactionType : String
  idempotencyKey : String
  description : String
  deriving Repr, DecidableEq

/-- The domain error set (pkg/errors sentinels and AppError kinds collapse to
the same identities at the service boundary). -/
inductive LedgerError where
  | accountNotFound
  | insufficientFunds
  | currencyMismatch
  | idempotencyConflict
  | selfTransfer
  | invalidAmount
  | invalidRequest
  | conflict
  deriving Repr, DecidableEq

/-- Row lookup by primary key: `First(&account, "id = ?", id)`. -/
def findAccount (s : LedgerState) (id : String) : Option Account :=
  s.accounts.find? (fun a => a.id == id)

/-- Lookup of a transaction by idempotency key:
`Where("idempotency_key = ?", key).First(&existing)`. -/
def findTxnByKey (s : LedgerState) (key : String) : Option Transaction :=
  s.transactions.find? (fun t => t.idempotencyKey == key)

/-- The entry rows of one transaction, as loaded by `Preload("Entries")`. -/
def entriesOf (s : LedgerState) (tid : Nat) : List LedgerEntry :=
  s.entries.filter (fun e => e.transactionID == tid)

/-- Attach the preloaded entries to a stored transaction row. -/
def attachEntries (s : LedgerState) (t : Transaction) : Transaction :=
  { t with entries := entriesOf s t.id }

/-- SUM(amount) over a list of entry rows. -/
def sumAmounts (es : List LedgerEntry) : Int :=
  (es.map (fun e => e.amount)).sum

/-- Credit sum minus debit sum over an entry table, for one account:
the body of ledgerRepository.GetDerivedBalance. -/
def derivedBalanceOf (es : List LedgerEntry) (accountID : String) : Int :=
  sumAmounts (es.filter (fun e => e.accountID == accountID && e.entryType == EntryTypeCredit))
    - sumAmounts (es.filter (fun e => e.accountID == accountID && e.entryType == EntryTypeDebit))

/-- ledgerRepository.GetDerivedBalance. -/
def getDerivedBalance (s : LedgerState) (accountID : String) : Int :=
  derivedBalanceOf s.entries accountID

/-- `tx.Model(acc).Updates(balance, version)`: update the row (every row)
whose primary key equals `accountID`. -/
def updateAccountRow (s : LedgerState) (accountID : String) (balance version : Int) :
    LedgerState :=
  { s with accounts := s.accounts.map (fun a =>
      if a.id == accountID then { a with balance := balance, version := version } else a) }

/-- Byte-lexicographic order on character lists; on valid UTF-8 the byte
order used by Go `slices.Sort` on strings agrees with code-point order. -/
def charListLe : List Char → List Char → Bool
  | [], _ => true
  | _ :: _, [] => false
  | a :: as, b :: bs => if a < b then true else if b < a then false else charListLe as bs

/-- Lexicographic string comparison matching Go string `<=`. -/
def strLe (a b : String) : Bool :=
  charListLe a.data b.data

/-- Step 1 of ExecuteDoubleEntry: the two endpoint ids in the deterministic
lock order (`slices.Sort` of the two-element slice). -/
def lockOrder (cmd : DoubleEntryCommand) : List String :=
  if strLe cmd.sourceAccountID cmd.destAccountID then
    [cmd.sourceAccountID, cmd.destAccountID]
  else
    [cmd.destAccountID, cmd.sourceAccountID]

/-- Step 2 of ExecuteDoubleEntry: read each id of `lockOrder` in turn with
`FOR UPDATE`; a missing row aborts the transaction.  Afterwards source and
dest are resolved from the locked map, as the Go code does with
`accounts[cmd.SourceAccountID]`. -/
def lockAccounts (s : LedgerState) (cmd : DoubleEntryCommand) : Option (Account × Account) :=
  if (lockOrder cmd).all (fun id => (findAccount s id).isSome) then
    match findAccount s cmd.sourceAccountID, findAccount s cmd.destAccountID with
    | some source, some dest => some (source, dest)
    | _, _ => none
  else
    none

/-- Step 6 of ExecuteDoubleEntry: the inserted transaction row, with the
engine-assigned id, the idempotency key, the type, the amount, the source
currency and the description. -/
def insertedTxn (s : LedgerState) (cmd : DoubleEntryCommand) (source : Account) :
    Transaction :=
  { id := s.nextId, idempotencyKey := cmd.idempotencyKey,
    transactionType := cmd.transactionType, amount := cmd.amount,
    currency := source.currency, description := cmd.description,
    createdAt := s.nextId, entries := [] }

/-- Step 7 of ExecuteDoubleEntry: the DEBIT entry on the source account with
balance_after = source.balance - amount. -/
def debitEntryOf (s : LedgerState) (cmd : DoubleEntryCommand) (source : Account) :
    LedgerEntry :=
  { id := s.nextId + 1, transactionID := s.nextId, accountID := source.id,
    entryType := EntryTypeDebit, amount := cmd.amount,
    balanceAfter := source.balance - cmd.amount }

/-- Step 8 of ExecuteDoubleEntry: the CREDIT entry on the destination account
with balance_after = dest.balance + amount. -/
def creditEntryOf (s : LedgerState) (cmd : DoubleEntryCommand) (dest : Account) :
    LedgerEntry :=
  { id := s.nextId + 2, transactionID := s.nextId, accountID := dest.id,
    entryType := EntryTypeCredit, amount := cmd.amount,
    balanceAfter := dest.balance + cmd.amount }

/-- Steps 6-10 of ExecuteDoubleEntry on the state: insert the transaction and
the two entries, then update the source row (step 9) and the destination row
(step 10), each with the balance-after value and its pre-read version plus 1. -/
def postState (s : LedgerState) (cmd : DoubleEntryCommand) (source dest : Account) :
    LedgerState :=
  let s1 : LedgerState :=
    { s with transactions := s.transactions ++ [insertedTxn s cmd source],
             entries := s.entries ++ [debitEntryOf s cmd source, creditEntryOf s cmd dest],
             nextId := s.nextId + 3 }
  let s2 := updateAccountRow s1 source.id (source.balance - cmd.amount) (source.version + 1)
  updateAccountRow s2 dest.id (dest.balance + cmd.amount) (dest.version + 1)

/-- The result of the fresh-key path: the transaction with its two entries
attached, and the updated state. -/
def newTransactionResult (s : LedgerState) (cmd : DoubleEntryCommand)
    (source dest : Account) : Except LedgerError (Transaction × LedgerState) :=
  .ok ({ insertedTxn s cmd source with
          entries := [debitEntryOf s cmd source, creditEntryOf s cmd dest] },
       postState s cmd source dest)

/-- ledgerRepository.ExecuteDoubleEntry (current repository variant): lock
both account rows in sorted order, then resolve the idempotency key, then
validate currencies and solvency, then write the double entry. -/
def executeDoubleEntry (s : LedgerState) (cmd : DoubleEntryCommand) :
    Except LedgerError (Transaction × LedgerState) :=
  match lockAccounts s cmd with
  | none => .error .accountNotFound
  | some (source, dest) =>
    match (if cmd.idempotencyKey = "" then none else findTxnByKey s cmd.idempotencyKey) with
    | some existing =>
      if existing.amount ≠ cmd.amount ∨ existing.transactionType ≠ cmd.transactionType then
        .error .idempotencyConflict
      else
        .ok (attachEntries s existing, s)
    | none =>
      if source.currency ≠ dest.currency then
        .error .currencyMismatch
      else if cmd.currency ≠ "" ∧ cmd.currency ≠ source.currency then
        .error .currencyMismatch
      else if source.accountType = AccountTypeUser ∧ source.balance < cmd.amount then
        .error .insufficientFunds
      else
        newTransactionResult s cmd source dest

/-- Deposit request payload (domain/ledger/dto.go). -/
structure DepositRequest where
  amount : Int
  currency : String
  idempotencyKey : String
  description : String
  deriving Repr, DecidableEq

/-- Withdraw request payload. -/
structure WithdrawRequest where
  amount : Int
  currency : String
  idempotencyKey : String
  description : String
  deriving Repr, DecidableEq

/-- Transfer request payload. -/
structure TransferRequest where
  sourceAccountID : String
  destAccountID : String
  amount : Int
  currency : String
  idempotencyKey : String
  description : String
  deriving Repr, DecidableEq

/-- ledgerService.CreateAccount composed with ledgerRepository.CreateAccount
and ToAccountModel: a USER account with zero balance and default currency
USD.  `generatedId` stands for the UUID assigned in BeforeCreate; the
primary-key uniqueness of the storage rejects a duplicate with Conflict. -/
def serviceCreateAccount (s : LedgerState) (generatedId name currency : String) :
    Except LedgerError (Account × LedgerState) :=
  let acc : Account :=
    { id := generatedId, name := name, accountType := AccountTypeUser,
      currency := if currency = "" then "USD" else currency,
      balance := 0, version := 0 }
  if (findAccount s acc.id).isSome then
    .error .conflict
  else
    .ok (acc, { s with accounts := s.accounts ++ [acc] })

/-- ledgerService.Deposit: after the request checks, build the command
with source = system account and dest = the target account.  (The nil-request
guard of the Go code has no counterpart here because requests are values.) -/
def serviceDeposit (s : LedgerState) (accountID : String) (req : DepositRequest) :
    Except LedgerError (Transaction × LedgerState) :=
  if accountID = "" then .error .invalidRequest
  else if req.amount ≤ 0 then .error .invalidAmount
  else
    executeDoubleEntry s
      { sourceAccountID := SystemAccountID, destAccountID := accountID,
        amount := req.amount, currency := req.currency,
        transactionType := TransactionTypeDeposit,
        idempotencyKey := req.idempotencyKey, description := req.description }

/-- ledgerService.Withdraw: source = the target account, dest = system. -/
def serviceWithdraw (s : LedgerState) (accountID : String) (req : WithdrawRequest) :
    Except LedgerError (Transaction × LedgerState) :=
  if accountID = "" then .error .invalidRequest
  else if req.amount ≤ 0 then .error .invalidAmount
  else
    executeDoubleEntry s
      { sourceAccountID := accountID, destAccountID := SystemAccountID,
        amount := req.amount, currency := req.currency,
        transactionType := TransactionTypeWithdrawal,
        idempotencyKey := req.idempotencyKey, description := req.description }

/-- ledgerService.Transfer: empty ids, self transfer and non-positive
amounts are rejected before the engine is called. -/
def serviceTransfer (s : LedgerState) (req : TransferRequest) :
    Except LedgerError (Transaction × LedgerState) :=
  if req.sourceAccountID = "" ∨ req.destAccountID = "" then .error .invalidRequest
  else if req.sourceAccountID = req.destAccountID then .error .selfTransfer
  else if req.amount ≤ 0 then .error .invalidAmount
  else
    executeDoubleEntry s
      { sourceAccountID := req.sourceAccountID, destAccountID := req.destAccountID,
        amount := req.amount, currency := req.currency,
        transactionType := TransactionTypeTransfer,
        idempotencyKey := req.idempotencyKey, description := req.description }

/-- The DISTINCT transaction_id subquery of GetTransactionsByAccountID: the
transactions having at least one ledger entry on the account. -/
def involvedTxns (s : LedgerState) (accountID : String) : List Transaction :=
  s.transactions.filter
    (fun t => s.entries.any (fun e => e.accountID == accountID && e.transactionID == t.id))

/-- ledgerRepository.GetTransactionsByAccountID: the transactions having at
least one entry on the account (the DISTINCT subquery above), ordered by
created_at DESC, with OFFSET applied before LIMIT as in the generated SQL,
each with its entries preloaded. -/
def getTransactionsByAccountID (s : LedgerState) (accountID : String)
    (limit offset : Int) : List Transaction :=
  let involved := involvedTxns s accountID
  let sorted := involved.mergeSort (fun a b => decide (b.createdAt ≤ a.createdAt))
  let afterOffset := if 0 < offset then sorted.drop offset.toNat else sorted
  let page := if 0 < limit then afterOffset.take limit.toNat else afterOffset
  page.map (attachEntries s)

/-- ledgerService.GetTransactions: verify the account exists, then delegate
to the repository. -/
def serviceGetTransactions (s : LedgerState) (accountID : String)
    (limit offset : Int) : Except LedgerError (List Transaction) :=
  if accountID = "" then .error .invalidRequest
  else
    match findAccount s accountID with
    | none => .error .accountNotFound
    | some _ => .ok (getTransactionsByAccountID s accountID limit offset)

/-- The limit parsing of getTransactionsHandler: `limit := 50`, replaced by
the query value only when it parses and `0 < parsed ≤ 100`. -/
def parseLimitParam (raw : Option Int) : Int :=
  match raw with
  | some parsed => if 0 < parsed ∧ parsed ≤ 100 then parsed else 50
  | none => 50

/-- The offset parsing of getTransactionsHandler: `offset := 0`, replaced by
the query value only when it parses and is non-negative. -/
def parseOffsetParam (raw : Option Int) : Int :=
  match raw with
  | some parsed => if 0 ≤ parsed then parsed else 0
  | none => 0

/-- One row of the reconciliation report (AccountReconciliation). -/
structure AccountReconciliation where
  accountID : String
  accountName : String
  accountType : String
  cachedBalance : Int
  derivedBalance : Int
  isConsistent : Bool
  deriving Repr, DecidableEq

/-- The reconciliation response of the service in the tree
(domain/ledger/dto.go): per-account rows and the global flag only. -/
structure ReconciliationResponse where
  accounts : List AccountReconciliation
  allConsistent : Bool
  deriving Repr, DecidableEq

/-- ledgerRepository.GetAllAccountsForReconciliation: one row per account
with cached and derived balances and the consistency flag. -/
def getAllAccountsForReconciliation (s : LedgerState) : List AccountReconciliation :=
  s.accounts.map (fun acc =>
    { accountID := acc.id, accountName := acc.name, accountType := acc.accountType,
      cachedBalance := acc.balance, derivedBalance := getDerivedBalance s acc.id,
      isConsistent := acc.balance == getDerivedBalance s acc.id })

/-- ledgerService.Reconcile: collect the rows and fold the per-row flags
into all_consistent. -/
def serviceReconcile (s : LedgerState) : ReconciliationResponse :=
  let results := getAllAccountsForReconciliation s
  { accounts := results, allConsistent := results.all (fun r => r.isConsistent) }

/-- The operations of the application service that mutate state, as invoked
through the HTTP surface. -/
inductive LedgerOp where
  | createAccount (generatedId name currency : String)
  | deposit (accountID : String) (req : DepositRequest)
  | withdraw (accountID : String) (req : WithdrawRequest)
  | transfer (req : TransferRequest)

/-- Run one operation; a failed operation rolls back and leaves the state
unchanged, so a run over any list is the run over its successful subsequence. -/
def applyOp (s : LedgerState) (op : LedgerOp) : LedgerState :=
  match op with
  | .createAccount gid n c =>
    match serviceCreateAccount s gid n c with
    | .ok (_, t) => t
    | .error _ => s
  | .deposit a r =>
    match serviceDeposit s a r with
    | .ok (_, t) => t
    | .error _ => s
  | .withdraw a r =>
    match serviceWithdraw s a r with
    | .ok (_, t) => t
    | .error _ => s
  | .transfer r =>
    match serviceTransfer s r with
    | .ok (_, t) => t
    | .error _ => s

/-- Run a list of operations in order. -/
def runOps (s : LedgerState) (ops : List LedgerOp) : LedgerState :=
  ops.foldl applyOp s

/-- The system account row seeded by the second migration. -/
def sysSeedAccount : Account :=
  { id := SystemAccountID, name := "External Funding Source",
    accountType := AccountTypeSystem, currency := "USD",
    balance := 0, version := 0 }

/-- The seeded initial state: exactly the system account row of the second
migration, an empty transaction and entry log. -/
def seedState : LedgerState :=
  { accounts := [sysSeedAccount], transactions := [], entries := [], nextId := 0 }

/-- Cached balance of an account as stored on its row. -/
def cachedBalance (s : LedgerState) (accountID : String) : Option Int :=
  (findAccount s accountID).map (fun a => a.balance)

/-- Version counter of an account row. -/
def accountVersion (s : LedgerState) (accountID : String) : Option Int :=
  (findAccount s accountID).map (fun a => a.version)

/-- The cached-vs-derived consistency invariant of the specification. -/
def Consistent (s : LedgerState) : Prop :=
  ∀ a ∈ s.accounts, a.balance = getDerivedBalance s a.id

/-- Every entry row references an existing account row. -/
def EntriesOwned (s : LedgerState) : Prop :=
  ∀ e ∈ s.entries, ∃ a ∈ s.accounts, a.id = e.accountID

/-- Operations whose engine command cannot be a self-pair: deposits and
withdrawals away from the system account (transfers reject self-pairs in
the service, account creation never reaches the engine). -/
def LedgerOp.safeOp : LedgerOp → Bool
  | .deposit a _ => a != SystemAccountID
  | .withdraw a _ => a != SystemAccountID
  | .createAccount _ _ _ => true
  | .transfer _ => true

example : (1 : Int) + 1 = 2 := by decide

/-! ## Order lemmas for the lock sequence -/

theorem charListLe_total (a b : List Char) : charListLe a b = true ∨ charListLe b a = true := by
  induction a generalizing b with
  | nil => left; rfl
  | cons x xs ih =>
    cases b with
    | nil => right; rfl
    | cons y ys =>
      rcases lt_trichotomy x y with h | h | h
      · left; simp [charListLe, h]
      · subst h; simpa [charListLe] using ih ys
      · right; simp [charListLe, h, not_lt_of_gt h]

theorem charListLe_antisymm (a b : List Char)
    (h1 : charListLe a b = true) (h2 : charListLe b a = true) : a = b := by
  induction a generalizing b with
  | nil =>
    cases b with
    | nil => rfl
    | cons y ys => simp [charListLe] at h2
  | cons x xs ih =>
    cases b with
    | nil => simp [charListLe] at h1
    | cons y ys =>
      rcases lt_trichotomy x y with h | h | h
      · simp [charListLe, h, not_lt_of_gt h] at h2
      · subst h
        simp only [charListLe, lt_irrefl, if_false] at h1 h2
        rw [ih ys h1 h2]
      · simp [charListLe, h, not_lt_of_gt h] at h1

theorem strLe_total (a b : String) : strLe a b = true ∨ strLe b a = true :=
  charListLe_total a.data b.data

theorem strLe_antisymm (a b : String) (h1 : strLe a b = true) (h2 : strLe b a = true) :
    a = b := by
  cases a with
  | mk da =>
    cases b with
    | mk db =>
      exact congrArg String.mk (charListLe_antisymm da db h1 h2)

/-! ## Reductions of the lock step -/

theorem lockOrder_all_isSome (s : LedgerState) (cmd : DoubleEntryCommand) :
    ((lockOrder cmd).all (fun id => (findAccount s id).isSome)) =
      ((findAccount s cmd.sourceAccountID).isSome &&
        (findAccount s cmd.destAccountID).isSome) := by
  unfold lockOrder
  split
  · simp
  · simp [Bool.and_comm]

theorem lockAccounts_some (s : LedgerState) (cmd : DoubleEntryCommand) (a b : Account)
    (hs : findAccount s cmd.sourceAccountID = some a)
    (hd : findAccount s cmd.destAccountID = some b) :
    lockAccounts s cmd = some (a, b) := by
  unfold lockAccounts
  rw [lockOrder_all_isSome, hs, hd]
  simp

theorem lockAccounts_none (s : LedgerState) (cmd : DoubleEntryCommand)
    (h : findAccount s cmd.sourceAccountID = none ∨ findAccount s cmd.destAccountID = none) :
    lockAccounts s cmd = none := by
  unfold lockAccounts
  rw [lockOrder_all_isSome]
  rcases h with h | h <;> simp [h]

/-! ## Reductions of ExecuteDoubleEntry -/

theorem executeDoubleEntry_fresh (s : LedgerState) (cmd : DoubleEntryCommand)
    (src dst : Account)
    (hs : findAccount s cmd.sourceAccountID = some src)
    (hd : findAccount s cmd.destAccountID = some dst)
    (hfresh : cmd.idempotencyKey = "" ∨ findTxnByKey s cmd.idempotencyKey = none)
    (hcur : src.currency = dst.currency)
    (hcur2 : cmd.currency = "" ∨ cmd.currency = src.currency) :
    executeDoubleEntry s cmd =
      if src.accountType = AccountTypeUser ∧ src.balance < cmd.amount then
        .error .insufficientFunds
      else
        newTransactionResult s cmd src dst := by
  unfold executeDoubleEntry
  rw [lockAccounts_some s cmd src dst hs hd]
  have hnone : (if cmd.idempotencyKey = "" then none else findTxnByKey s cmd.idempotencyKey)
      = (none : Option Transaction) := by
    rcases hfresh with h | h
    · rw [if_pos h]
    · rw [h]; split <;> rfl
  rw [hnone]
  dsimp only
  rw [if_neg (show ¬ src.currency ≠ dst.currency by simp [hcur])]
  rw [if_neg (show ¬ (cmd.currency ≠ "" ∧ cmd.currency ≠ src.currency) by
    rcases hcur2 with h | h <;> simp [h])]

theorem executeDoubleEntry_ok (s : LedgerState) (cmd : DoubleEntryCommand)
    (src dst : Account)
    (hs : findAccount s cmd.sourceAccountID = some src)
    (hd : findAccount s cmd.destAccountID = some dst)
    (hfresh : cmd.idempotencyKey = "" ∨ findTxnByKey s cmd.idempotencyKey = none)
    (hcur : src.currency = dst.currency)
    (hcur2 : cmd.currency = "" ∨ cmd.currency = src.currency)
    (hsolv : ¬ (src.accountType = AccountTypeUser ∧ src.balance < cmd.amount)) :
    executeDoubleEntry s cmd = newTransactionResult s cmd src dst := by
  rw [executeDoubleEntry_fresh s cmd src dst hs hd hfresh hcur hcur2, if_neg hsolv]

theorem executeDoubleEntry_replay (s : LedgerState) (cmd : DoubleEntryCommand)
    (src dst : Account) (existing : Transaction)
    (hs : findAccount s cmd.sourceAccountID = some src)
    (hd : findAccount s cmd.destAccountID = some dst)
    (hkey : cmd.idempotencyKey ≠ "")
    (hfound : findTxnByKey s cmd.idempotencyKey = some existing) :
    executeDoubleEntry s cmd =
      if existing.amount ≠ cmd.amount ∨ existing.transactionType ≠ cmd.transactionType then
        .error .idempotencyConflict
      else
        .ok (attachEntries s existing, s) := by
  unfold executeDoubleEntry
  rw [lockAccounts_some s cmd src dst hs hd, if_neg hkey, hfound]

/-! ## Claim C8 -/

/-- Claim C8: ExecuteDoubleEntry locks the two account rows in the
lexicographically sorted order of their id strings; the lock sequence for
source=A, dest=B equals the one for source=B, dest=A, and it consists of
exactly the two endpoint ids, so it depends only on the id set. -/
theorem claim8_deterministic_lock_order (cmd : DoubleEntryCommand) :
    List.Pairwise (fun x y => strLe x y = true) (lockOrder cmd) ∧
    lockOrder { cmd with sourceAccountID := cmd.destAccountID,
                         destAccountID := cmd.sourceAccountID } = lockOrder cmd ∧
    (lockOrder cmd).Perm [cmd.sourceAccountID, cmd.destAccountID] := by
  unfold lockOrder
  by_cases hab : strLe cmd.sourceAccountID cmd.destAccountID = true
  · rw [if_pos hab]
    refine ⟨by simp [hab], ?_, List.Perm.refl _⟩
    by_cases hba : strLe cmd.destAccountID cmd.sourceAccountID = true
    · have heq := strLe_antisymm _ _ hba hab
      rw [heq]
      split <;> rfl
    · rw [if_neg hba]
  · have hba : strLe cmd.destAccountID cmd.sourceAccountID = true := by
      rcases strLe_total cmd.sourceAccountID cmd.destAccountID with h | h
      · exact absurd h hab
      · exact h
    rw [if_neg hab]
    refine ⟨by simp [hba], ?_, List.Perm.swap _ _ _⟩
    simp only [if_pos hba]

/-! ## Claim C2 -/

/-- Claim C2: the row locks are taken first, so whenever either endpoint
account is missing, ExecuteDoubleEntry fails with AccountNotFound before any
idempotency-key lookup, even when a stored transaction matches the key. -/
theorem claim2_lock_before_idempotency (s : LedgerState) (cmd : DoubleEntryCommand)
    (h : findAccount s cmd.sourceAccountID = none ∨ findAccount s cmd.destAccountID = none) :
    executeDoubleEntry s cmd = .error .accountNotFound := by
  unfold executeDoubleEntry
  rw [lockAccounts_none s cmd h]

/-- A stored transaction used by the C2 witness. -/
def txnC2 : Transaction :=
  { id := 0, idempotencyKey := "dep-1", transactionType := "DEPOSIT", amount := 100,
    currency := "USD", description := "", createdAt := 0, entries := [] }

/-- A state holding a transaction with key dep-1 but no account rows. -/
def stC2 : LedgerState :=
  { accounts := [], transactions := [txnC2], entries := [], nextId := 1 }

/-- A command whose key matches the stored transaction but whose endpoint
accounts are missing. -/
def cmdC2 : DoubleEntryCommand :=
  { sourceAccountID := SystemAccountID, destAccountID := "acc-gone", amount := 100,
    currency := "", transactionType := "DEPOSIT", idempotencyKey := "dep-1",
    description := "" }

/-- Witness for C2: the key matches a stored transaction with equal amount
and type, yet the call fails with AccountNotFound. -/
theorem claim2_witness :
    findTxnByKey stC2 cmdC2.idempotencyKey = some txnC2 ∧
    txnC2.amount = cmdC2.amount ∧ txnC2.transactionType = cmdC2.transactionType ∧
    executeDoubleEntry stC2 cmdC2 = .error .accountNotFound :=
  ⟨by decide, by decide, by decide,
    claim2_lock_before_idempotency stC2 cmdC2 (Or.inl (by decide))⟩

/-! ## Claim C3 -/

/-- A stored transaction with key idem-k, used by the C3 counterexample. -/
def txnC3 : Transaction :=
  { id := 0, idempotencyKey := "idem-k", transactionType := "DEPOSIT", amount := 100,
    currency := "USD", description := "", createdAt := 0, entries := [] }

/-- A state holding that transaction and its two entries, but no accounts. -/
def stC3 : LedgerState :=
  { accounts := [],
    transactions := [txnC3],
    entries := [
      { id := 1, transactionID := 0, accountID := "src-gone", entryType := "DEBIT",
        amount := 100, balanceAfter := -100 },
      { id := 2, transactionID := 0, accountID := "dst-gone", entryType := "CREDIT",
        amount := 100, balanceAfter := 100 } ],
    nextId := 3 }

/-- A command that repeats the stored transaction exactly. -/
def cmdC3 : DoubleEntryCommand :=
  { sourceAccountID := "src-gone", destAccountID := "dst-gone", amount := 100,
    currency := "", transactionType := "DEPOSIT", idempotencyKey := "idem-k",
    description := "" }

/-- Counterexample to C3 as stated: the non-empty key idem-k matches a stored
transaction with equal (amount, transaction_type), yet the call does not
succeed with that transaction: it fails with AccountNotFound because the
endpoint accounts are gone and the row locks are taken before the key lookup. -/
theorem claim3_counterexample :
    cmdC3.idempotencyKey ≠ "" ∧
    findTxnByKey stC3 cmdC3.idempotencyKey = some txnC3 ∧
    txnC3.amount = cmdC3.amount ∧
    txnC3.transactionType = cmdC3.transactionType ∧
    executeDoubleEntry stC3 cmdC3 = .error .accountNotFound := by
  refine ⟨by decide, by decide, by decide, by decide, ?_⟩
  rfl

/-- Claim C3 (amended): provided both endpoint accounts exist, a command
whose non-empty idempotency key matches a stored transaction returns that
transaction with its preloaded entries and an unchanged state when the
stored (amount, transaction_type) equal those of the command, and fails with
IdempotencyConflict (leaving the state unchanged) otherwise. -/
theorem claim3_idempotency_resolution (s : LedgerState) (cmd : DoubleEntryCommand)
    (src dst : Account) (existing : Transaction)
    (hs : findAccount s cmd.sourceAccountID = some src)
    (hd : findAccount s cmd.destAccountID = some dst)
    (hkey : cmd.idempotencyKey ≠ "")
    (hfound : findTxnByKey s cmd.idempotencyKey = some existing) :
    (existing.amount = cmd.amount ∧ existing.transactionType = cmd.transactionType →
      executeDoubleEntry s cmd = .ok (attachEntries s existing, s)) ∧
    (existing.amount ≠ cmd.amount ∨ existing.transactionType ≠ cmd.transactionType →
      executeDoubleEntry s cmd = .error .idempotencyConflict) := by
  rw [executeDoubleEntry_replay s cmd src dst existing hs hd hkey hfound]
  constructor
  · intro h
    rw [if_neg (by simp [h.1, h.2])]
  · intro h
    rw [if_pos h]

/-- Accounts for the C3 witness. -/
def srcW3 : Account :=
  { id := "acc-s", name := "S", accountType := "USER", currency := "USD",
    balance := 0, version := 1 }

/-- Destination account for the C3 witness. -/
def dstW3 : Account :=
  { id := "acc-d", name := "D", accountType := "USER", currency := "USD",
    balance := 100, version := 1 }

/-- Witness state for C3: both accounts exist and key idem-k is stored. -/
def stW3 : LedgerState :=
  { accounts := [srcW3, dstW3],
    transactions := [txnC3],
    entries := [
      { id := 1, transactionID := 0, accountID := "acc-s", entryType := "DEBIT",
        amount := 100, balanceAfter := 0 },
      { id := 2, transactionID := 0, accountID := "acc-d", entryType := "CREDIT",
        amount := 100, balanceAfter := 100 } ],
    nextId := 3 }

/-- Witness command repeating the stored transaction on existing accounts. -/
def cmdW3 : DoubleEntryCommand :=
  { sourceAccountID := "acc-s", destAccountID := "acc-d", amount := 100,
    currency := "", transactionType := "DEPOSIT", idempotencyKey := "idem-k",
    description := "" }

/-- Witness for the amended C3: the matching replay succeeds with the stored
transaction and entries, without state change. -/
theorem claim3_witness :
    executeDoubleEntry stW3 cmdW3 = .ok (attachEntries stW3 txnC3, stW3) :=
  (claim3_idempotency_resolution stW3 cmdW3 srcW3 dstW3 txnC3
    (by decide) (by decide) (by decide) (by decide)).1 (by decide)

/-! ## Claim C5 -/

/-- Claim C5 (amended): on the fresh-key path with both accounts present and
the currency checks passing, ExecuteDoubleEntry fails with InsufficientFunds
exactly when the source is a USER account with balance below the amount; in
every other case (balance exactly reaching zero, or a SYSTEM source going
negative) the call succeeds.  A failed storage transaction rolls back, so an
InsufficientFunds failure leaves the state unchanged. -/
theorem claim5_insufficient_funds (s : LedgerState) (cmd : DoubleEntryCommand)
    (src dst : Account)
    (hs : findAccount s cmd.sourceAccountID = some src)
    (hd : findAccount s cmd.destAccountID = some dst)
    (hfresh : cmd.idempotencyKey = "" ∨ findTxnByKey s cmd.idempotencyKey = none)
    (hcur : src.currency = dst.currency)
    (hcur2 : cmd.currency = "" ∨ cmd.currency = src.currency) :
    (executeDoubleEntry s cmd = .error .insufficientFunds ↔
      src.accountType = AccountTypeUser ∧ src.balance < cmd.amount) ∧
    (¬ (src.accountType = AccountTypeUser ∧ src.balance < cmd.amount) →
      (executeDoubleEntry s cmd).isOk = true) := by
  have hmain := executeDoubleEntry_fresh s cmd src dst hs hd hfresh hcur hcur2
  constructor
  · constructor
    · intro h
      by_contra hneg
      rw [hmain, if_neg hneg] at h
      exact absurd h (by unfold newTransactionResult; simp)
    · intro h
      rw [hmain, if_pos h]
  · intro h
    rw [hmain, if_neg h]
    rfl

/-- Source account for the C5 counterexample: USER with balance 50. -/
def srcC5 : Account :=
  { id := "acc-a", name := "A", accountType := "USER", currency := "USD",
    balance := 50, version := 0 }

/-- Destination account for the C5 counterexample. -/
def dstC5 : Account :=
  { id := "acc-b", name := "B", accountType := "USER", currency := "USD",
    balance := 0, version := 0 }

/-- State for the C5 counterexample. -/
def stC5 : LedgerState :=
  { accounts := [srcC5, dstC5], transactions := [], entries := [], nextId := 0 }

/-- A command whose USER source lacks funds and whose currency disagrees. -/
def cmdC5 : DoubleEntryCommand :=
  { sourceAccountID := "acc-a", destAccountID := "acc-b", amount := 100,
    currency := "EUR", transactionType := "TRANSFER", idempotencyKey := "",
    description := "" }

/-- Counterexample to C5 as stated: the source is USER with balance below the
amount, yet the call fails with CurrencyMismatch, not InsufficientFunds,
because the currency validation runs first. -/
theorem claim5_counterexample :
    findAccount stC5 cmdC5.sourceAccountID = some srcC5 ∧
    srcC5.accountType = AccountTypeUser ∧
    srcC5.balance < cmdC5.amount ∧
    executeDoubleEntry stC5 cmdC5 = .error .currencyMismatch := by
  refine ⟨by decide, by decide, by decide, ?_⟩
  rfl

/-- Witness state for C5: USER source with balance 5000. -/
def stW5 : LedgerState :=
  { accounts := [
      { id := "acc-a", name := "A", accountType := "USER", currency := "USD",
        balance := 5000, version := 0 },
      { id := SystemAccountID, name := "External Funding Source",
        accountType := "SYSTEM", currency := "USD", balance := -5000, version := 1 } ],
    transactions := [], entries := [], nextId := 0 }

/-- A withdrawal-shaped command of 10000 against the 5000 balance. -/
def cmdW5 : DoubleEntryCommand :=
  { sourceAccountID := "acc-a", destAccountID := SystemAccountID, amount := 10000,
    currency := "", transactionType := "WITHDRAWAL", idempotencyKey := "wd-1",
    description := "" }

/-- Witness for the amended C5: withdrawing 10000 from a USER balance of 5000
fails with InsufficientFunds. -/
theorem claim5_witness :
    executeDoubleEntry stW5 cmdW5 = .error .insufficientFunds :=
  (claim5_insufficient_funds stW5 cmdW5
      { id := "acc-a", name := "A", accountType := "USER", currency := "USD",
        balance := 5000, version := 0 }
      { id := SystemAccountID, name := "External Funding Source",
        accountType := "SYSTEM", currency := "USD", balance := -5000, version := 1 }
      (by decide) (by decide) (Or.inr (by decide)) (by decide)
      (Or.inl (by decide))).1.mpr (by decide)

/-! ## Accessor lemmas for the success path -/

theorem findAccount_id (s : LedgerState) (q : String) (a : Account)
    (h : findAccount s q = some a) : a.id = q := by
  have := List.find?_some h
  simpa using this

theorem findAccount_mem (s : LedgerState) (q : String) (a : Account)
    (h : findAccount s q = some a) : a ∈ s.accounts :=
  List.mem_of_find?_eq_some h

/-- The effect of step 9 of ExecuteDoubleEntry on one account row. -/
def srcUpdate (cmd : DoubleEntryCommand) (source : Account) (a : Account) : Account :=
  if a.id == source.id then
    { a with balance := source.balance - cmd.amount, version := source.version + 1 }
  else a

/-- The effect of step 10 of ExecuteDoubleEntry on one account row. -/
def dstUpdate (cmd : DoubleEntryCommand) (dest : Account) (a : Account) : Account :=
  if a.id == dest.id then
    { a with balance := dest.balance + cmd.amount, version := dest.version + 1 }
  else a

theorem srcUpdate_id (cmd : DoubleEntryCommand) (source a : Account) :
    (srcUpdate cmd source a).id = a.id := by
  unfold srcUpdate
  split <;> rfl

theorem dstUpdate_id (cmd : DoubleEntryCommand) (dest a : Account) :
    (dstUpdate cmd dest a).id = a.id := by
  unfold dstUpdate
  split <;> rfl

theorem postState_entries (s : LedgerState) (cmd : DoubleEntryCommand)
    (source dest : Account) :
    (postState s cmd source dest).entries =
      s.entries ++ [debitEntryOf s cmd source, creditEntryOf s cmd dest] := rfl

theorem postState_transactions (s : LedgerState) (cmd : DoubleEntryCommand)
    (source dest : Account) :
    (postState s cmd source dest).transactions =
      s.transactions ++ [insertedTxn s cmd source] := rfl

theorem postState_accounts (s : LedgerState) (cmd : DoubleEntryCommand)
    (source dest : Account) :
    (postState s cmd source dest).accounts =
      s.accounts.map (fun a => dstUpdate cmd dest (srcUpdate cmd source a)) := by
  unfold postState updateAccountRow srcUpdate dstUpdate
  simp [List.map_map]

theorem findAccount_updateAccountRow (s : LedgerState) (aid : String) (b v : Int)
    (q : String) :
    findAccount (updateAccountRow s aid b v) q =
      (findAccount s q).map (fun a =>
        if a.id == aid then { a with balance := b, version := v } else a) := by
  unfold findAccount updateAccountRow
  simp only
  rw [List.find?_map]
  have hp : ((fun a : Account => a.id == q) ∘ fun a : Account =>
      if a.id == aid then { a with balance := b, version := v } else a)
      = fun a : Account => a.id == q := by
    funext a
    by_cases h : a.id == aid
    · rw [Function.comp_apply, if_pos h]
    · rw [Function.comp_apply, if_neg h]
  rw [hp]

theorem findAccount_postState (s : LedgerState) (cmd : DoubleEntryCommand)
    (source dest : Account) (q : String) :
    findAccount (postState s cmd source dest) q =
      (findAccount s q).map (fun a => dstUpdate cmd dest (srcUpdate cmd source a)) := by
  unfold postState
  rw [findAccount_updateAccountRow, findAccount_updateAccountRow]
  rw [Option.map_map]
  rfl

theorem entriesOf_postState (s : LedgerState) (cmd : DoubleEntryCommand)
    (source dest : Account)
    (hwf : ∀ e ∈ s.entries, e.transactionID ≠ s.nextId) :
    entriesOf (postState s cmd source dest) s.nextId =
      [debitEntryOf s cmd source, creditEntryOf s cmd dest] := by
  unfold entriesOf
  rw [postState_entries, List.filter_append]
  have h1 : s.entries.filter (fun e => e.transactionID == s.nextId) = [] := by
    rw [List.filter_eq_nil_iff]
    intro e he
    simpa using hwf e he
  rw [h1]
  simp [debitEntryOf, creditEntryOf]

theorem derivedBalanceOf_append (es fs : List LedgerEntry) (aid : String) :
    derivedBalanceOf (es ++ fs) aid = derivedBalanceOf es aid + derivedBalanceOf fs aid := by
  unfold derivedBalanceOf sumAmounts
  rw [List.filter_append, List.filter_append, List.map_append, List.map_append,
      List.sum_append, List.sum_append]
  ring

theorem derivedBalanceOf_pair (s : LedgerState) (cmd : DoubleEntryCommand)
    (source dest : Account) (aid : String) :
    derivedBalanceOf [debitEntryOf s cmd source, creditEntryOf s cmd dest] aid =
      (if dest.id = aid then cmd.amount else 0)
        - (if source.id = aid then cmd.amount else 0) := by
  unfold derivedBalanceOf sumAmounts debitEntryOf creditEntryOf
  by_cases h1 : source.id = aid <;> by_cases h2 : dest.id = aid <;>
    simp [h1, h2, EntryTypeDebit, EntryTypeCredit]

theorem getDerivedBalance_postState (s : LedgerState) (cmd : DoubleEntryCommand)
    (source dest : Account) (aid : String) :
    getDerivedBalance (postState s cmd source dest) aid =
      getDerivedBalance s aid + ((if dest.id = aid then cmd.amount else 0)
        - (if source.id = aid then cmd.amount else 0)) := by
  unfold getDerivedBalance
  rw [postState_entries, derivedBalanceOf_append, derivedBalanceOf_pair]

/-! ## Claim C1 -/

/-- A stored transaction for the C1 replay counterexample. -/
def txnC1 : Transaction :=
  { id := 0, idempotencyKey := "c1-k", transactionType := "DEPOSIT", amount := 100,
    currency := "USD", description := "", createdAt := 0, entries := [] }

/-- State for the C1 counterexample: the transaction of key c1-k is already
stored with its two entries, and both accounts exist. -/
def stC1 : LedgerState :=
  { accounts := [
      { id := "c1-s", name := "S", accountType := "USER", currency := "USD",
        balance := 0, version := 1 },
      { id := "c1-d", name := "D", accountType := "USER", currency := "USD",
        balance := 100, version := 1 } ],
    transactions := [txnC1],
    entries := [
      { id := 1, transactionID := 0, accountID := "c1-s", entryType := "DEBIT",
        amount := 100, balanceAfter := 0 },
      { id := 2, transactionID := 0, accountID := "c1-d", entryType := "CREDIT",
        amount := 100, balanceAfter := 100 } ],
    nextId := 3 }

/-- The same command replayed with key c1-k. -/
def cmdC1 : DoubleEntryCommand :=
  { sourceAccountID := "c1-s", destAccountID := "c1-d", amount := 100,
    currency := "", transactionType := "DEPOSIT", idempotencyKey := "c1-k",
    description := "" }

/-- Counterexample to C1 as stated: an idempotent replay is a successful
ExecuteDoubleEntry call, yet it returns the state unchanged, so the source
cached balance (0) does not decrease by the amount and no version changes. -/
theorem claim1_counterexample :
    executeDoubleEntry stC1 cmdC1 = .ok (attachEntries stC1 txnC1, stC1) ∧
    cachedBalance stC1 cmdC1.sourceAccountID = some 0 ∧
    (0 : Int) ≠ 0 - cmdC1.amount := by
  refine ⟨rfl, rfl, by decide⟩

/-- Claim C1 (amended): every successful ExecuteDoubleEntry call that writes
a new transaction (no stored transaction matches the idempotency key) for a
command with distinct endpoints creates exactly two entries for the returned
transaction - a DEBIT on the source with balance_after equal to the source
pre-call balance minus the amount and a CREDIT on the destination with
balance_after equal to the destination pre-call balance plus the amount, on
two distinct accounts - and the source cached balance decreases by the
amount, the destination one increases by it, and each version grows by 1. -/
theorem claim1_double_entry_effects (s : LedgerState) (cmd : DoubleEntryCommand)
    (t : Transaction) (s2 : LedgerState) (src dst : Account)
    (hs : findAccount s cmd.sourceAccountID = some src)
    (hd : findAccount s cmd.destAccountID = some dst)
    (hne : cmd.sourceAccountID ≠ cmd.destAccountID)
    (hfresh : cmd.idempotencyKey = "" ∨ findTxnByKey s cmd.idempotencyKey = none)
    (hwf : ∀ e ∈ s.entries, e.transactionID ≠ s.nextId)
    (hok : executeDoubleEntry s cmd = .ok (t, s2)) :
    t.amount = cmd.amount ∧
    t.id = s.nextId ∧
    entriesOf s2 t.id = [debitEntryOf s cmd src, creditEntryOf s cmd dst] ∧
    (debitEntryOf s cmd src).entryType = EntryTypeDebit ∧
    (debitEntryOf s cmd src).accountID = cmd.sourceAccountID ∧
    (debitEntryOf s cmd src).amount = cmd.amount ∧
    (debitEntryOf s cmd src).balanceAfter = src.balance - cmd.amount ∧
    (creditEntryOf s cmd dst).entryType = EntryTypeCredit ∧
    (creditEntryOf s cmd dst).accountID = cmd.destAccountID ∧
    (creditEntryOf s cmd dst).amount = cmd.amount ∧
    (creditEntryOf s cmd dst).balanceAfter = dst.balance + cmd.amount ∧
    (debitEntryOf s cmd src).accountID ≠ (creditEntryOf s cmd dst).accountID ∧
    cachedBalance s cmd.sourceAccountID = some src.balance ∧
    cachedBalance s cmd.destAccountID = some dst.balance ∧
    cachedBalance s2 cmd.sourceAccountID = some (src.balance - cmd.amount) ∧
    cachedBalance s2 cmd.destAccountID = some (dst.balance + cmd.amount) ∧
    accountVersion s cmd.sourceAccountID = some src.version ∧
    accountVersion s cmd.destAccountID = some dst.version ∧
    accountVersion s2 cmd.sourceAccountID = some (src.version + 1) ∧
    accountVersion s2 cmd.destAccountID = some (dst.version + 1) := by
  have hsid : src.id = cmd.sourceAccountID := findAccount_id s _ src hs
  have hdid : dst.id = cmd.destAccountID := findAccount_id s _ dst hd
  have hidne : src.id ≠ dst.id := by
    rw [hsid, hdid]
    exact hne
  unfold executeDoubleEntry at hok
  rw [lockAccounts_some s cmd src dst hs hd] at hok
  have hnone : (if cmd.idempotencyKey = "" then none else findTxnByKey s cmd.idempotencyKey)
      = (none : Option Transaction) := by
    rcases hfresh with h | h
    · rw [if_pos h]
    · rw [h]
      split <;> rfl
  rw [hnone] at hok
  dsimp only at hok
  split at hok
  · simp at hok
  split at hok
  · simp at hok
  split at hok
  · simp at hok
  unfold newTransactionResult at hok
  rw [Except.ok.injEq, Prod.mk.injEq] at hok
  obtain ⟨ht, hs2⟩ := hok
  subst ht
  subst hs2
  have hsu : srcUpdate cmd src src
      = { src with balance := src.balance - cmd.amount, version := src.version + 1 } := by
    unfold srcUpdate
    rw [if_pos (by simp)]
  have hupdsrc : dstUpdate cmd dst (srcUpdate cmd src src)
      = { src with balance := src.balance - cmd.amount, version := src.version + 1 } := by
    rw [hsu]
    unfold dstUpdate
    rw [if_neg (by simp [hidne])]
  have hdu : srcUpdate cmd src dst = dst := by
    unfold srcUpdate
    rw [if_neg (by simp [Ne.symm hidne])]
  have hupddst : dstUpdate cmd dst (srcUpdate cmd src dst)
      = { dst with balance := dst.balance + cmd.amount, version := dst.version + 1 } := by
    rw [hdu]
    unfold dstUpdate
    rw [if_pos (by simp)]
  have hfindsrc : findAccount (postState s cmd src dst) cmd.sourceAccountID
      = some { src with balance := src.balance - cmd.amount, version := src.version + 1 } := by
    have h0 : findAccount (postState s cmd src dst) cmd.sourceAccountID
        = some (dstUpdate cmd dst (srcUpdate cmd src src)) := by
      rw [findAccount_postState, hs]
      rfl
    rw [h0, hupdsrc]
  have hfinddst : findAccount (postState s cmd src dst) cmd.destAccountID
      = some { dst with balance := dst.balance + cmd.amount, version := dst.version + 1 } := by
    have h0 : findAccount (postState s cmd src dst) cmd.destAccountID
        = some (dstUpdate cmd dst (srcUpdate cmd src dst)) := by
      rw [findAccount_postState, hd]
      rfl
    rw [h0, hupddst]
  refine ⟨rfl, rfl, ?_, rfl, hsid, rfl, rfl, rfl, hdid, rfl, rfl, ?_, ?_, ?_, ?_, ?_, ?_, ?_, ?_, ?_⟩
  · exact entriesOf_postState s cmd src dst hwf
  · show src.id ≠ dst.id
    exact hidne
  · unfold cachedBalance
    rw [hs]
    rfl
  · unfold cachedBalance
    rw [hd]
    rfl
  · unfold cachedBalance
    rw [hfindsrc]
    rfl
  · unfold cachedBalance
    rw [hfinddst]
    rfl
  · unfold accountVersion
    rw [hs]
    rfl
  · unfold accountVersion
    rw [hd]
    rfl
  · unfold accountVersion
    rw [hfindsrc]
    rfl
  · unfold accountVersion
    rw [hfinddst]
    rfl

/-- Source account for the C1 witness. -/
def srcW1 : Account :=
  { id := "w1-a", name := "Alice", accountType := "USER", currency := "USD",
    balance := 10000, version := 0 }

/-- Destination account for the C1 witness. -/
def dstW1 : Account :=
  { id := "w1-b", name := "Bob", accountType := "USER", currency := "USD",
    balance := 0, version := 0 }

/-- Witness state for C1. -/
def stW1 : LedgerState :=
  { accounts := [srcW1, dstW1], transactions := [], entries := [], nextId := 0 }

/-- A fresh transfer command for the C1 witness. -/
def cmdW1 : DoubleEntryCommand :=
  { sourceAccountID := "w1-a", destAccountID := "w1-b", amount := 4000,
    currency := "", transactionType := "TRANSFER", idempotencyKey := "w1-k",
    description := "" }

/-- The transaction returned by the C1 witness call. -/
def tW1 : Transaction :=
  { insertedTxn stW1 cmdW1 srcW1 with
    entries := [debitEntryOf stW1 cmdW1 srcW1, creditEntryOf stW1 cmdW1 dstW1] }

/-- The state after the C1 witness call. -/
def s2W1 : LedgerState := postState stW1 cmdW1 srcW1 dstW1

/-- Witness for the amended C1 at a concrete fresh transfer of 4000. -/
theorem claim1_witness :
    entriesOf s2W1 tW1.id = [debitEntryOf stW1 cmdW1 srcW1, creditEntryOf stW1 cmdW1 dstW1] ∧
    cachedBalance s2W1 cmdW1.sourceAccountID = some (srcW1.balance - cmdW1.amount) ∧
    cachedBalance s2W1 cmdW1.destAccountID = some (dstW1.balance + cmdW1.amount) ∧
    accountVersion s2W1 cmdW1.sourceAccountID = some (srcW1.version + 1) ∧
    accountVersion s2W1 cmdW1.destAccountID = some (dstW1.version + 1) := by
  have h := claim1_double_entry_effects stW1 cmdW1 tW1 s2W1 srcW1 dstW1
    (by decide) (by decide) (by decide) (Or.inr (by decide)) (by decide) rfl
  obtain ⟨h1, h2, h3, h4, h5, h6, h7, h8, h9, h10, h11, h12, h13, h14, h15, h16,
    h17, h18, h19, h20⟩ := h
  exact ⟨h3, h15, h16, h19, h20⟩

/-! ## Claim C10 -/

/-- The command ledgerService.Deposit builds when asked to deposit into the
system account: source and destination are both the system account. -/
def sysDepositCmd (amt : Int) (key : String) : DoubleEntryCommand :=
  { sourceAccountID := SystemAccountID, destAccountID := SystemAccountID,
    amount := amt, currency := "", transactionType := TransactionTypeDeposit,
    idempotencyKey := key, description := "" }

/-- Claim C10: a Deposit whose account is the system account reaches
ExecuteDoubleEntry as a self-pair command (the service does not reject it);
with a fresh non-empty key it succeeds, writes the DEBIT entry with
balance_after = B - amount and the CREDIT entry with balance_after =
B + amount against the same account of pre-call balance B, leaves the final
cached balance at B + amount because both updates hit the same row, and
leaves the derived balance unchanged. -/
theorem claim10_self_pair_deposit (s : LedgerState) (amt : Int) (key : String)
    (sys : Account)
    (hfind : findAccount s SystemAccountID = some sys)
    (htype : sys.accountType = AccountTypeSystem)
    (hamt : 0 < amt)
    (hkey : key ≠ "")
    (hfresh : findTxnByKey s key = none) :
    ∃ t s2,
      serviceDeposit s SystemAccountID
          { amount := amt, currency := "", idempotencyKey := key, description := "" }
        = .ok (t, s2) ∧
      s2.entries = s.entries ++
        [ { id := s.nextId + 1, transactionID := s.nextId, accountID := sys.id,
            entryType := EntryTypeDebit, amount := amt,
            balanceAfter := sys.balance - amt },
          { id := s.nextId + 2, transactionID := s.nextId, accountID := sys.id,
            entryType := EntryTypeCredit, amount := amt,
            balanceAfter := sys.balance + amt } ] ∧
      sys.id = SystemAccountID ∧
      cachedBalance s2 SystemAccountID = some (sys.balance + amt) ∧
      getDerivedBalance s2 SystemAccountID = getDerivedBalance s SystemAccountID := by
  have hsvc : serviceDeposit s SystemAccountID
      { amount := amt, currency := "", idempotencyKey := key, description := "" }
      = executeDoubleEntry s (sysDepositCmd amt key) := by
    unfold serviceDeposit
    rw [if_neg (show ¬ SystemAccountID = "" by decide)]
    rw [if_neg (show ¬ amt ≤ 0 from not_le.mpr hamt)]
    rfl
  have hok := executeDoubleEntry_ok s (sysDepositCmd amt key) sys sys
    hfind hfind (Or.inr hfresh) rfl (Or.inl rfl)
    (by
      intro hcon
      rw [htype] at hcon
      exact absurd hcon.1 (by decide))
  refine ⟨{ insertedTxn s (sysDepositCmd amt key) sys with
             entries := [debitEntryOf s (sysDepositCmd amt key) sys,
                         creditEntryOf s (sysDepositCmd amt key) sys] },
          postState s (sysDepositCmd amt key) sys sys, ?_, ?_, ?_, ?_, ?_⟩
  · rw [hsvc, hok]
    rfl
  · rw [postState_entries]
    rfl
  · exact findAccount_id s SystemAccountID sys hfind
  · have h1 : srcUpdate (sysDepositCmd amt key) sys sys
        = { sys with balance := sys.balance - amt, version := sys.version + 1 } := by
      unfold srcUpdate
      rw [if_pos (by simp)]
      rfl
    have h2 : dstUpdate (sysDepositCmd amt key) sys
        { sys with balance := sys.balance - amt, version := sys.version + 1 }
        = { sys with balance := sys.balance + amt, version := sys.version + 1 } := by
      unfold dstUpdate
      rw [if_pos (by simp)]
      rfl
    have h0 : findAccount (postState s (sysDepositCmd amt key) sys sys) SystemAccountID
        = some (dstUpdate (sysDepositCmd amt key) sys
            (srcUpdate (sysDepositCmd amt key) sys sys)) := by
      rw [findAccount_postState, hfind]
      rfl
    unfold cachedBalance
    rw [h0, h1, h2]
    rfl
  · rw [getDerivedBalance_postState]
    rw [sub_self, add_zero]

/-- Witness for C10 at the seeded state: depositing 100 into the system
account succeeds and leaves cached balance 100 against derived balance 0. -/
theorem claim10_witness :
    ∃ t s2,
      serviceDeposit seedState SystemAccountID
          { amount := 100, currency := "", idempotencyKey := "w10-k", description := "" }
        = .ok (t, s2) ∧
      s2.entries = seedState.entries ++
        [ { id := seedState.nextId + 1, transactionID := seedState.nextId,
            accountID := sysSeedAccount.id, entryType := EntryTypeDebit,
            amount := 100, balanceAfter := sysSeedAccount.balance - 100 },
          { id := seedState.nextId + 2, transactionID := seedState.nextId,
            accountID := sysSeedAccount.id, entryType := EntryTypeCredit,
            amount := 100, balanceAfter := sysSeedAccount.balance + 100 } ] ∧
      sysSeedAccount.id = SystemAccountID ∧
      cachedBalance s2 SystemAccountID = some (sysSeedAccount.balance + 100) ∧
      getDerivedBalance s2 SystemAccountID = getDerivedBalance seedState SystemAccountID :=
  claim10_self_pair_deposit seedState 100 "w10-k" sysSeedAccount
    (by decide) (by decide) (by decide) (by decide) (by decide)

/-! ## Invariant machinery for claim C6 -/

/-- The two invariants reconciliation relies on: every cached balance equals
its derived balance, and every entry row belongs to an existing account. -/
def LedgerInv (s : LedgerState) : Prop := Consistent s ∧ EntriesOwned s

theorem derivedBalanceOf_no_entries (es : List LedgerEntry) (aid : String)
    (h : ∀ e ∈ es, e.accountID ≠ aid) : derivedBalanceOf es aid = 0 := by
  unfold derivedBalanceOf sumAmounts
  have h1 : es.filter (fun e => e.accountID == aid && e.entryType == EntryTypeCredit) = [] := by
    rw [List.filter_eq_nil_iff]
    intro e he
    simp [h e he]
  have h2 : es.filter (fun e => e.accountID == aid && e.entryType == EntryTypeDebit) = [] := by
    rw [List.filter_eq_nil_iff]
    intro e he
    simp [h e he]
  rw [h1, h2]
  rfl

theorem lockAccounts_some_inv (s : LedgerState) (cmd : DoubleEntryCommand)
    (a b : Account) (h : lockAccounts s cmd = some (a, b)) :
    findAccount s cmd.sourceAccountID = some a ∧
    findAccount s cmd.destAccountID = some b := by
  unfold lockAccounts at h
  split at h
  · split at h
    case h_1 src dst hsrc hdst =>
      rw [Option.some.injEq, Prod.mk.injEq] at h
      obtain ⟨h1, h2⟩ := h
      subst h1
      subst h2
      exact ⟨hsrc, hdst⟩
    case h_2 => simp at h
  · simp at h

theorem executeDoubleEntry_ok_cases (s : LedgerState) (cmd : DoubleEntryCommand)
    (t : Transaction) (s2 : LedgerState)
    (hok : executeDoubleEntry s cmd = .ok (t, s2)) :
    s2 = s ∨
    ∃ src dst, findAccount s cmd.sourceAccountID = some src ∧
      findAccount s cmd.destAccountID = some dst ∧
      s2 = postState s cmd src dst := by
  unfold executeDoubleEntry at hok
  split at hok
  · simp at hok
  case h_2 src dst hlock =>
    obtain ⟨hsrc, hdst⟩ := lockAccounts_some_inv s cmd src dst hlock
    split at hok
    · split at hok
      · simp at hok
      · rw [Except.ok.injEq, Prod.mk.injEq] at hok
        exact Or.inl hok.2.symm
    · split at hok
      · simp at hok
      · split at hok
        · simp at hok
        · split at hok
          · simp at hok
          · unfold newTransactionResult at hok
            rw [Except.ok.injEq, Prod.mk.injEq] at hok
            exact Or.inr ⟨src, dst, hsrc, hdst, hok.2.symm⟩

theorem inv_postState (s : LedgerState) (cmd : DoubleEntryCommand) (src dst : Account)
    (hs : findAccount s cmd.sourceAccountID = some src)
    (hd : findAccount s cmd.destAccountID = some dst)
    (hne : cmd.sourceAccountID ≠ cmd.destAccountID)
    (hinv : LedgerInv s) : LedgerInv (postState s cmd src dst) := by
  obtain ⟨hc, ho⟩ := hinv
  have hsid : src.id = cmd.sourceAccountID := findAccount_id _ _ _ hs
  have hdid : dst.id = cmd.destAccountID := findAccount_id _ _ _ hd
  have hidne : src.id ≠ dst.id := by
    rw [hsid, hdid]
    exact hne
  have hsrcbal : src.balance = getDerivedBalance s src.id :=
    hc src (findAccount_mem _ _ _ hs)
  have hdstbal : dst.balance = getDerivedBalance s dst.id :=
    hc dst (findAccount_mem _ _ _ hd)
  constructor
  · intro a2 ha2
    rw [postState_accounts] at ha2
    obtain ⟨a, ha, rfl⟩ := List.mem_map.mp ha2
    have hbala : a.balance = getDerivedBalance s a.id := hc a ha
    have hid2 : (dstUpdate cmd dst (srcUpdate cmd src a)).id = a.id := by
      rw [dstUpdate_id, srcUpdate_id]
    rw [hid2, getDerivedBalance_postState]
    by_cases h1 : a.id = src.id
    · have hdna : dst.id ≠ a.id := by
        rw [h1]
        exact Ne.symm hidne
      have hasrc : srcUpdate cmd src a
          = { a with balance := src.balance - cmd.amount, version := src.version + 1 } := by
        unfold srcUpdate
        rw [if_pos (by simp [h1])]
      have hadst : dstUpdate cmd dst
          { a with balance := src.balance - cmd.amount, version := src.version + 1 }
          = { a with balance := src.balance - cmd.amount, version := src.version + 1 } := by
        unfold dstUpdate
        rw [if_neg (by simp [h1, hidne])]
      rw [hasrc, hadst, if_neg hdna, if_pos h1.symm]
      show src.balance - cmd.amount = getDerivedBalance s a.id + (0 - cmd.amount)
      rw [h1, ← hsrcbal]
      ring
    · by_cases h2 : a.id = dst.id
      · have hasrc : srcUpdate cmd src a = a := by
          unfold srcUpdate
          rw [if_neg (by simp [h1])]
        have hadst : dstUpdate cmd dst a
            = { a with balance := dst.balance + cmd.amount, version := dst.version + 1 } := by
          unfold dstUpdate
          rw [if_pos (by simp [h2])]
        rw [hasrc, hadst, if_pos h2.symm, if_neg (fun hcon => h1 hcon.symm)]
        show dst.balance + cmd.amount = getDerivedBalance s a.id + (cmd.amount - 0)
        rw [h2, ← hdstbal]
        ring
      · have hasrc : srcUpdate cmd src a = a := by
          unfold srcUpdate
          rw [if_neg (by simp [h1])]
        have hadst : dstUpdate cmd dst a = a := by
          unfold dstUpdate
          rw [if_neg (by simp [h2])]
        rw [hasrc, hadst, if_neg (fun hcon => h2 hcon.symm),
            if_neg (fun hcon => h1 hcon.symm)]
        rw [hbala]
        ring
  · intro e he
    rw [postState_entries, List.mem_append] at he
    rcases he with he | he
    · obtain ⟨a0, ha0, hid0⟩ := ho e he
      refine ⟨dstUpdate cmd dst (srcUpdate cmd src a0), ?_, ?_⟩
      · rw [postState_accounts]
        exact List.mem_map.mpr ⟨a0, ha0, rfl⟩
      · rw [dstUpdate_id, srcUpdate_id]
        exact hid0
    · have hmem2 : e = debitEntryOf s cmd src ∨ e = creditEntryOf s cmd dst := by
        simpa using he
      rcases hmem2 with rfl | rfl
      · refine ⟨dstUpdate cmd dst (srcUpdate cmd src src), ?_, ?_⟩
        · rw [postState_accounts]
          exact List.mem_map.mpr ⟨src, findAccount_mem _ _ _ hs, rfl⟩
        · rw [dstUpdate_id, srcUpdate_id]
          rfl
      · refine ⟨dstUpdate cmd dst (srcUpdate cmd src dst), ?_, ?_⟩
        · rw [postState_accounts]
          exact List.mem_map.mpr ⟨dst, findAccount_mem _ _ _ hd, rfl⟩
        · rw [dstUpdate_id, srcUpdate_id]
          rfl

theorem inv_serviceCreateAccount (s : LedgerState) (gid n c : String)
    (acc : Account) (s2 : LedgerState)
    (hok : serviceCreateAccount s gid n c = .ok (acc, s2))
    (hinv : LedgerInv s) : LedgerInv s2 := by
  obtain ⟨hc, ho⟩ := hinv
  unfold serviceCreateAccount at hok
  set cur := (if c = "" then "USD" else c) with hcur
  dsimp only at hok
  split at hok
  · simp at hok
  case isFalse hdup =>
    rw [Except.ok.injEq, Prod.mk.injEq] at hok
    obtain ⟨-, ht⟩ := hok
    subst ht
    have hfresh : ∀ e ∈ s.entries, e.accountID ≠ gid := by
      intro e he hcontra
      obtain ⟨a0, ha0, hid0⟩ := ho e he
      apply hdup
      unfold findAccount
      rw [List.find?_isSome]
      exact ⟨a0, ha0, by simp [hid0, hcontra]⟩
    constructor
    · intro a ha
      rcases List.mem_append.mp ha with hmem | hmem
      · exact hc a hmem
      · have hval := List.mem_singleton.mp hmem
        subst hval
        show (0 : Int) = getDerivedBalance _ gid
        unfold getDerivedBalance
        rw [derivedBalanceOf_no_entries _ _ hfresh]
    · intro e he
      obtain ⟨a0, ha0, hid0⟩ := ho e he
      exact ⟨a0, List.mem_append_left _ ha0, hid0⟩

theorem inv_applyOp (s : LedgerState) (op : LedgerOp)
    (hsafe : op.safeOp = true) (hinv : LedgerInv s) : LedgerInv (applyOp s op) := by
  cases op with
  | createAccount gid n c =>
    simp only [applyOp]
    split
    case h_1 p t hok =>
      exact inv_serviceCreateAccount s gid n c p t hok hinv
    case h_2 => exact hinv
  | deposit a r =>
    simp only [applyOp]
    split
    case h_1 t s2 hok =>
      unfold serviceDeposit at hok
      split at hok
      · simp at hok
      · split at hok
        · simp at hok
        · rcases executeDoubleEntry_ok_cases _ _ _ _ hok with heq | ⟨src, dst, hsrc, hdst, heq⟩
          · rw [heq]
            exact hinv
          · rw [heq]
            refine inv_postState _ _ _ _ hsrc hdst ?_ hinv
            show SystemAccountID ≠ a
            have := hsafe
            unfold LedgerOp.safeOp at this
            intro hcontra
            simp [← hcontra] at this
    case h_2 => exact hinv
  | withdraw a r =>
    simp only [applyOp]
    split
    case h_1 t s2 hok =>
      unfold serviceWithdraw at hok
      split at hok
      · simp at hok
      · split at hok
        · simp at hok
        · rcases executeDoubleEntry_ok_cases _ _ _ _ hok with heq | ⟨src, dst, hsrc, hdst, heq⟩
          · rw [heq]
            exact hinv
          · rw [heq]
            refine inv_postState _ _ _ _ hsrc hdst ?_ hinv
            show a ≠ SystemAccountID
            have := hsafe
            unfold LedgerOp.safeOp at this
            intro hcontra
            simp [hcontra] at this
    case h_2 => exact hinv
  | transfer r =>
    simp only [applyOp]
    split
    case h_1 t s2 hok =>
      unfold serviceTransfer at hok
      split at hok
      · simp at hok
      · split at hok
        · simp at hok
        case isFalse hne =>
          split at hok
          · simp at hok
          · rcases executeDoubleEntry_ok_cases _ _ _ _ hok with heq | ⟨src, dst, hsrc, hdst, heq⟩
            · rw [heq]
              exact hinv
            · rw [heq]
              exact inv_postState _ _ _ _ hsrc hdst hne hinv
    case h_2 => exact hinv

theorem inv_runOps (s : LedgerState) (ops : List LedgerOp)
    (hinv : LedgerInv s) (hsafe : ∀ op ∈ ops, op.safeOp = true) :
    LedgerInv (runOps s ops) := by
  induction ops generalizing s with
  | nil => exact hinv
  | cons op rest ih =>
    exact ih (applyOp s op)
      (inv_applyOp s op (hsafe op (by simp)) hinv)
      (fun o ho => hsafe o (by simp [ho]))

theorem seed_inv : LedgerInv seedState := by
  constructor
  · intro a ha
    have hval : a = sysSeedAccount := by simpa [seedState] using ha
    subst hval
    rfl
  · intro e he
    simp [seedState] at he

/-! ## Claim C6 -/

/-- The operation sequence of the C6 counterexample: one deposit into the
system account, which ledgerService.Deposit accepts. -/
def opsC6 : List LedgerOp :=
  [ .deposit SystemAccountID
      { amount := 100, currency := "", idempotencyKey := "c6-k", description := "" } ]

/-- Counterexample to C6 as stated: starting from the seeded state, the
single successful operation of opsC6 leaves the system account cached
balance at 100 while its derived balance stays 0. -/
theorem claim6_counterexample :
    (serviceDeposit seedState SystemAccountID
      { amount := 100, currency := "", idempotencyKey := "c6-k", description := "" }).isOk
      = true ∧
    cachedBalance (runOps seedState opsC6) SystemAccountID = some 100 ∧
    getDerivedBalance (runOps seedState opsC6) SystemAccountID = 0 :=
  ⟨rfl, rfl, rfl⟩

/-- Claim C6 (amended): starting from the seeded initial state, after any
sequence of operations none of which deposits into or withdraws from the
system account (the one reachable self-pair command), every account cached
balance equals its derived balance; failed operations roll back and leave
the state unchanged. -/
theorem claim6_cached_equals_derived (ops : List LedgerOp)
    (hsafe : ∀ op ∈ ops, op.safeOp = true) :
    Consistent (runOps seedState ops) :=
  (inv_runOps seedState ops seed_inv hsafe).1

/-- A demonstration sequence for the C6 witness: two accounts, a deposit, a
transfer and a withdrawal. -/
def opsW6 : List LedgerOp :=
  [ .createAccount "acc-alice" "Alice" "",
    .createAccount "acc-bob" "Bob" "USD",
    .deposit "acc-alice"
      { amount := 10000, currency := "", idempotencyKey := "w6-1", description := "" },
    .transfer
      { sourceAccountID := "acc-alice", destAccountID := "acc-bob", amount := 4000,
        currency := "", idempotencyKey := "w6-2", description := "" },
    .withdraw "acc-bob"
      { amount := 1000, currency := "", idempotencyKey := "w6-3", description := "" } ]

/-- Witness for the amended C6 on a concrete five-operation run. -/
theorem claim6_witness : Consistent (runOps seedState opsW6) :=
  claim6_cached_equals_derived opsW6 (by decide)

/-! ## Claim C4 -/

/-- Number of entry rows in the post-state of a mutation result. -/
def resultEntryCount (r : Except LedgerError (Transaction × LedgerState)) : Nat :=
  match r with
  | .ok (_, s2) => s2.entries.length
  | .error _ => 0

/-- The deposit request of the C4 failing input. -/
def reqC4 : DepositRequest :=
  { amount := 5000, currency := "", idempotencyKey := "dep-sys", description := "" }

/-- A state with one user account, to exhibit a transfer out of the system
account. -/
def stC4 : LedgerState := runOps seedState [ .createAccount "acc-x" "X" "" ]

/-- Claim C4 evaluated at the failing inputs: the service has no system
account guard - a deposit to the system account id succeeds and writes two
entries, a withdrawal from it succeeds, and a transfer whose source is the
system account succeeds as well; no SystemAccountForbidden failure occurs
and storage is written. -/
theorem claim4_code_behaviour :
    (serviceDeposit seedState SystemAccountID reqC4).isOk = true ∧
    resultEntryCount (serviceDeposit seedState SystemAccountID reqC4) = 2 ∧
    (serviceWithdraw seedState SystemAccountID
      { amount := 5000, currency := "", idempotencyKey := "wd-sys",
        description := "" }).isOk = true ∧
    (serviceTransfer stC4
      { sourceAccountID := SystemAccountID, destAccountID := "acc-x", amount := 500,
        currency := "", idempotencyKey := "tr-sys",
        description := "" }).isOk = true :=
  ⟨rfl, rfl, rfl, rfl⟩

/-! ## Claim C7 -/

/-- A concrete state for evaluating Reconcile: one user account, a deposit
of 10000 and a withdrawal of 2000. -/
def stC7 : LedgerState :=
  runOps seedState
    [ .createAccount "acc-ivan" "Ivan" "",
      .deposit "acc-ivan"
        { amount := 10000, currency := "", idempotencyKey := "c7-1", description := "" },
      .withdraw "acc-ivan"
        { amount := 2000, currency := "", idempotencyKey := "c7-2", description := "" } ]

/-- Claim C7 evaluated on the code: ledgerService.Reconcile returns only the
per-account rows and the all_consistent flag - the ReconciliationResponse
type has no total_debits, total_credits or ledger_balanced fields and the
service computes no ledger totals - although the entry log of this state
does carry 12000 of debits and 12000 of credits. -/
theorem claim7_code_behaviour :
    serviceReconcile stC7 =
      { accounts := [
          { accountID := SystemAccountID, accountName := "External Funding Source",
            accountType := "SYSTEM", cachedBalance := -8000, derivedBalance := -8000,
            isConsistent := true },
          { accountID := "acc-ivan", accountName := "Ivan", accountType := "USER",
            cachedBalance := 8000, derivedBalance := 8000,
            isConsistent := true } ],
        allConsistent := true } ∧
    sumAmounts (stC7.entries.filter (fun e => e.entryType == EntryTypeDebit)) = 12000 ∧
    sumAmounts (stC7.entries.filter (fun e => e.entryType == EntryTypeCredit)) = 12000 :=
  ⟨rfl, rfl, rfl⟩

/-! ## Claim C9 -/

theorem parseLimit_bounds (ql : Option Int) :
    0 < parseLimitParam ql ∧ parseLimitParam ql ≤ 100 := by
  unfold parseLimitParam
  rcases ql with _ | p
  · exact ⟨by decide, by decide⟩
  · dsimp only
    split
    case isTrue h => exact h
    case isFalse h => exact ⟨by decide, by decide⟩

theorem parseOffset_nonneg (qo : Option Int) : 0 ≤ parseOffsetParam qo := by
  unfold parseOffsetParam
  rcases qo with _ | p
  · decide
  · dsimp only
    split
    case isTrue h => exact h
    case isFalse h => decide

theorem getTransactionsByAccountID_spec (s : LedgerState) (accountID : String)
    (limit offset : Int)
    (hlim : 0 < limit)
    (hnd : (s.transactions.map (fun t => t.id)).Nodup) :
    (∀ t ∈ getTransactionsByAccountID s accountID limit offset,
      (∃ e ∈ s.entries, e.accountID = accountID ∧ e.transactionID = t.id) ∧
      t.entries = entriesOf s t.id) ∧
    List.Pairwise (fun u v : Transaction => v.createdAt ≤ u.createdAt)
      (getTransactionsByAccountID s accountID limit offset) ∧
    ((getTransactionsByAccountID s accountID limit offset).map (fun t => t.id)).Nodup ∧
    (getTransactionsByAccountID s accountID limit offset).length ≤ limit.toNat ∧
    (offset ≤ 0 → (involvedTxns s accountID).length ≤ limit.toNat →
      ∀ t ∈ involvedTxns s accountID,
        attachEntries s t ∈ getTransactionsByAccountID s accountID limit offset) := by
  have hsorted : List.Pairwise
      (fun u v : Transaction => (decide (v.createdAt ≤ u.createdAt)) = true)
      ((involvedTxns s accountID).mergeSort
        (fun a b => decide (b.createdAt ≤ a.createdAt))) := by
    apply List.sorted_mergeSort
    · intro a b c hab hbc
      simp only [decide_eq_true_eq] at hab hbc ⊢
      omega
    · intro a b
      simp only [Bool.or_eq_true, decide_eq_true_eq]
      omega
  have hperm : (((involvedTxns s accountID).mergeSort
      (fun a b => decide (b.createdAt ≤ a.createdAt)))).Perm (involvedTxns s accountID) :=
    List.mergeSort_perm _ _
  have hpage : getTransactionsByAccountID s accountID limit offset =
      ((if 0 < offset then
          ((involvedTxns s accountID).mergeSort
            (fun a b => decide (b.createdAt ≤ a.createdAt))).drop offset.toNat
        else
          ((involvedTxns s accountID).mergeSort
            (fun a b => decide (b.createdAt ≤ a.createdAt)))).take limit.toNat).map
        (attachEntries s) := by
    unfold getTransactionsByAccountID
    dsimp only
    rw [if_pos hlim]
  have hsub : ((if 0 < offset then
        ((involvedTxns s accountID).mergeSort
          (fun a b => decide (b.createdAt ≤ a.createdAt))).drop offset.toNat
      else
        ((involvedTxns s accountID).mergeSort
          (fun a b => decide (b.createdAt ≤ a.createdAt)))).take limit.toNat).Sublist
      ((involvedTxns s accountID).mergeSort
        (fun a b => decide (b.createdAt ≤ a.createdAt))) := by
    apply List.Sublist.trans (List.take_sublist _ _)
    split
    · exact List.drop_sublist _ _
    · exact List.Sublist.refl _
  refine ⟨?_, ?_, ?_, ?_, ?_⟩
  · intro t ht
    rw [hpage] at ht
    obtain ⟨u, hu, rfl⟩ := List.mem_map.mp ht
    have humem : u ∈ involvedTxns s accountID :=
      List.mem_mergeSort.mp (hsub.mem hu)
    have hpred := (List.mem_filter.mp humem).2
    rw [List.any_eq_true] at hpred
    obtain ⟨e, he, hpe⟩ := hpred
    rw [Bool.and_eq_true, beq_iff_eq, beq_iff_eq] at hpe
    exact ⟨⟨e, he, hpe.1, hpe.2⟩, rfl⟩
  · rw [hpage]
    apply List.Pairwise.map
    · intro a b hab
      exact hab
    · exact List.Pairwise.sublist hsub (hsorted.imp (by
        intro a b h
        exact of_decide_eq_true h))
  · rw [hpage, List.map_map]
    have hcomp : ((fun t : Transaction => t.id) ∘ attachEntries s)
        = fun t : Transaction => t.id := rfl
    rw [hcomp]
    apply List.Nodup.sublist (hsub.map _)
    have hinv : ((involvedTxns s accountID).map (fun t => t.id)).Nodup := by
      apply List.Nodup.sublist ((List.filter_sublist _).map _) hnd
    exact ((hperm.map (fun t => t.id)).symm).nodup hinv
  · rw [hpage, List.length_map, List.length_take]
    exact min_le_left _ _
  · intro hoff hlen t ht
    rw [hpage, if_neg (by omega)]
    have hlensort : (((involvedTxns s accountID).mergeSort
        (fun a b => decide (b.createdAt ≤ a.createdAt)))).length ≤ limit.toNat := by
      rw [List.length_mergeSort]
      exact hlen
    rw [List.take_of_length_le hlensort]
    apply List.mem_map.mpr
    refine ⟨t, ?_, rfl⟩
    rw [List.mem_mergeSort]
    exact ht

/-- Claim C9: GetTransactions verifies account existence first (failing with
AccountNotFound otherwise) and returns transactions having at least one
ledger entry on the account, each once and with its entries attached,
ordered by created_at descending, under the handler pagination whose limit
defaults to 50, always stays within 1..100, and whose offset is never
negative; with the default offset and no truncation every involved
transaction is returned. -/
theorem claim9_get_transactions (s : LedgerState) (accountID : String)
    (ql qo : Option Int)
    (hid : accountID ≠ "")
    (hnd : (s.transactions.map (fun t => t.id)).Nodup) :
    (0 < parseLimitParam ql ∧ parseLimitParam ql ≤ 100) ∧
    parseLimitParam none = 50 ∧
    0 ≤ parseOffsetParam qo ∧
    (findAccount s accountID = none →
      serviceGetTransactions s accountID (parseLimitParam ql) (parseOffsetParam qo)
        = .error .accountNotFound) ∧
    (∀ l, serviceGetTransactions s accountID (parseLimitParam ql) (parseOffsetParam qo)
        = .ok l →
      (∀ t ∈ l, (∃ e ∈ s.entries, e.accountID = accountID ∧ e.transactionID = t.id) ∧
        t.entries = entriesOf s t.id) ∧
      List.Pairwise (fun u v : Transaction => v.createdAt ≤ u.createdAt) l ∧
      (l.map (fun t => t.id)).Nodup ∧
      l.length ≤ (parseLimitParam ql).toNat ∧
      (qo = none → (involvedTxns s accountID).length ≤ (parseLimitParam ql).toNat →
        ∀ t ∈ involvedTxns s accountID, attachEntries s t ∈ l)) := by
  refine ⟨parseLimit_bounds ql, rfl, parseOffset_nonneg qo, ?_, ?_⟩
  · intro hnone
    unfold serviceGetTransactions
    rw [if_neg hid, hnone]
  · intro l hok
    unfold serviceGetTransactions at hok
    rw [if_neg hid] at hok
    rcases hfa : findAccount s accountID with _ | a
    · rw [hfa] at hok
      simp at hok
    · rw [hfa] at hok
      dsimp only at hok
      rw [Except.ok.injEq] at hok
      subst hok
      obtain ⟨h1, h2, h3, h4, h5⟩ := getTransactionsByAccountID_spec s accountID
        (parseLimitParam ql) (parseOffsetParam qo) (parseLimit_bounds ql).1 hnd
      refine ⟨h1, h2, h3, h4, ?_⟩
      intro hqo hlen t ht
      refine h5 ?_ hlen t ht
      rw [hqo]
      decide

/-- A state with two deposits on one user account, for the C9 witness. -/
def stW9 : LedgerState :=
  runOps seedState
    [ .createAccount "acc-w9" "W9" "",
      .deposit "acc-w9"
        { amount := 1000, currency := "", idempotencyKey := "w9-1", description := "" },
      .deposit "acc-w9"
        { amount := 2000, currency := "", idempotencyKey := "w9-2", description := "" } ]

/-- Witness for C9 with default pagination parameters on stW9. -/
theorem claim9_witness :
    (0 < parseLimitParam none ∧ parseLimitParam none ≤ 100) ∧
    parseLimitParam none = 50 ∧
    0 ≤ parseOffsetParam none ∧
    (findAccount stW9 "acc-w9" = none →
      serviceGetTransactions stW9 "acc-w9" (parseLimitParam none) (parseOffsetParam none)
        = .error .accountNotFound) ∧
    (∀ l, serviceGetTransactions stW9 "acc-w9" (parseLimitParam none) (parseOffsetParam none)
        = .ok l →
      (∀ t ∈ l, (∃ e ∈ stW9.entries, e.accountID = "acc-w9" ∧ e.transactionID = t.id) ∧
        t.entries = entriesOf stW9 t.id) ∧
      List.Pairwise (fun u v : Transaction => v.createdAt ≤ u.createdAt) l ∧
      (l.map (fun t => t.id)).Nodup ∧
      l.length ≤ (parseLimitParam none).toNat ∧
      ((none : Option Int) = none →
        (involvedTxns stW9 "acc-w9").length ≤ (parseLimitParam none).toNat →
        ∀ t ∈ involvedTxns stW9 "acc-w9", attachEntries stW9 t ∈ l)) :=
  claim9_get_transactions stW9 "acc-w9" none none (by decide) (by decide)
